import Mathlib

/-!
Shallow embedding of the `VoidTx` batch-payment contract
(Solidity, `contract VoidTx`): the settlement entry point `batchPay`,
the read-only helpers `estimateBatchCost` and `getStats`, and the
`receive` / `fallback` entry points that reject any other interaction.

Modelling conventions:
* `uint256` values are `Nat`; Solidity 0.8 checked arithmetic reverts on
  overflow, modelled by an explicit `U256 ≤ _` test wherever the source
  performs an addition whose operands are not already bounded below `2^256`
  (the running sum `totalRequired`, the sum in `estimateBatchCost`, and the
  two global statistics accumulators).  Additions inside the payment loop
  (`successCount`, `failureCount`, `totalProcessed`, the loop index) cannot
  overflow because they are bounded by `paymentsLength ≤ 100` respectively by
  `totalRequired < 2^256`, which validation has already established; they are
  therefore plain `Nat` additions here.
* `address` is `Nat`, with `0` the zero address.
* The outcome of each low-level value call is decided by the environment
  `Env`: `transferOk i` is the boolean returned by the call made for payment
  index `i`, `transferReason i` is the revert data that call returns on
  failure (which `batchPay` discards — the source binds `(bool success, )`),
  and `refundOk` / `excessOk` decide the two reconciliation calls to the
  sender.
* A Solidity revert rolls back every state write, event and value transfer
  of the call; an `Except.error` outcome of `batchPay` therefore carries
  nothing, and the transaction-level wrapper `stepVoidTx` keeps the
  pre-call state with no events and no transfers in that case.
-/

namespace VoidTx

/-- The modulus of `uint256`, i.e. `2^256`; a checked addition reverts when the
mathematical sum reaches this bound. -/
def U256 : Nat := 2 ^ 256

/-- Source: `uint256 public constant MIN_AMOUNT = 0.0001 ether;` (in wei). -/
def MIN_AMOUNT : Nat := 100000000000000

/-- Source: `uint256 public constant MAX_RECIPIENTS = 100;` -/
def MAX_RECIPIENTS : Nat := 100

/-- Source: `struct Payment` with a payable recipient address and a `uint256` amount. -/
structure Payment where
  recipient : Nat
  amount : Nat
deriving Repr, DecidableEq

/-- Source: `struct PaymentResult` with a success flag, recipient address and amount. -/
structure PaymentResult where
  success : Bool
  recipient : Nat
  amount : Nat
deriving Repr, DecidableEq

/-- The contract's storage: the two aggregate statistics counters. -/
structure ContractState where
  totalPaymentsProcessed : Nat
  totalVolumeProcessed : Nat
deriving Repr, DecidableEq

/-- The four events the contract emits. -/
inductive Event where
  | BatchPaymentInitiated (sender totalRecipients totalAmount timestamp : Nat)
  | PaymentSuccess (sender recipient amount index : Nat)
  | PaymentFailed (sender recipient amount index : Nat) (reason : String)
  | BatchPaymentCompleted (sender successCount failureCount totalProcessed : Nat)
deriving Repr, DecidableEq

/-- The distinguishable ways a `batchPay` call can revert, named after the
spec's error taxonomy.  In the source each is a `require(_, msg)` revert
string, except `Overflow`, which is the checked-arithmetic panic. -/
inductive BatchError where
  | EmptyBatch
  | BatchTooLarge
  | InvalidRecipient
  | AmountTooSmall
  | InsufficientFunds
  | Overflow
  | RefundFailed
  | ExcessRefundFailed
deriving Repr, DecidableEq

/-- The revert string the source attaches to each error
(`Overflow` is a `Panic(0x11)` rather than a string revert). -/
def errorMessage : BatchError → String
  | .EmptyBatch => "No payments provided"
  | .BatchTooLarge => "Too many recipients"
  | .InvalidRecipient => "Invalid recipient address"
  | .AmountTooSmall => "Amount too small"
  | .InsufficientFunds => "Insufficient funds sent"
  | .Overflow => "arithmetic overflow"
  | .RefundFailed => "Refund failed"
  | .ExcessRefundFailed => "Excess refund failed"

/-- The execution environment: outcomes of the external value calls the
contract makes.  `transferOk i` is the boolean the low-level call for payment
index `i` returns; `transferReason i` is that call's revert data on failure,
which `batchPay` discards (`(bool success, ) = recipient.call...`);
`refundOk` and `excessOk` decide the two reconciliation calls to the sender. -/
structure Env where
  transferOk : Nat → Bool
  transferReason : Nat → Option String
  refundOk : Bool
  excessOk : Bool

/-- The validation loop of `batchPay` (source lines 143–147): scans the
payments in order, rejecting a zero recipient, then an amount below
`MIN_AMOUNT`, then performing the checked addition
`totalRequired += payments[i].amount`. -/
def computeTotalRequired : List Payment → Nat → Except BatchError Nat
  | [], acc => .ok acc
  | p :: rest, acc =>
    if p.recipient = 0 then .error .InvalidRecipient
    else if p.amount < MIN_AMOUNT then .error .AmountTooSmall
    else if U256 ≤ acc + p.amount then .error .Overflow
    else computeTotalRequired rest (acc + p.amount)

/-- Everything the payment loop of `batchPay` (source lines 168–202)
accumulates: the results array, the three counters, the emitted events, and
the value transfers that actually moved funds (recipient, amount). -/
structure LoopAcc where
  results : List PaymentResult
  successCount : Nat
  failureCount : Nat
  totalProcessed : Nat
  events : List Event
  transfers : List (Nat × Nat)
deriving Repr, DecidableEq

/-- The payment loop of `batchPay` (source lines 168–202): one low-level
value call per payment, recording a `PaymentResult` either way and never
aborting; `i` is the loop index of the first payment of the list. -/
def processPayments (sender : Nat) (env : Env) : Nat → List Payment → LoopAcc
  | _, [] => ⟨[], 0, 0, 0, [], []⟩
  | i, p :: rest =>
    let success := env.transferOk i
    let acc := processPayments sender env (i + 1) rest
    if success then
      { results := ⟨true, p.recipient, p.amount⟩ :: acc.results
        successCount := acc.successCount + 1
        failureCount := acc.failureCount
        totalProcessed := p.amount + acc.totalProcessed
        events := .PaymentSuccess sender p.recipient p.amount i :: acc.events
        transfers := (p.recipient, p.amount) :: acc.transfers }
    else
      { results := ⟨false, p.recipient, p.amount⟩ :: acc.results
        successCount := acc.successCount
        failureCount := acc.failureCount + 1
        totalProcessed := acc.totalProcessed
        events := .PaymentFailed sender p.recipient p.amount i "Transfer failed" :: acc.events
        transfers := acc.transfers }

/-- What a completed (non-reverting) `batchPay` call produces: the returned
results array, the internal accounting quantities, the post-call storage, the
events emitted, and the value transfers that moved funds — the loop's
transfers to recipients and the reconciliation transfers to the sender. -/
structure BatchOutcome where
  results : List PaymentResult
  successCount : Nat
  failureCount : Nat
  totalProcessed : Nat
  totalRequired : Nat
  failedAmount : Nat
  excess : Nat
  finalState : ContractState
  events : List Event
  paymentTransfers : List (Nat × Nat)
  refundTransfers : List (Nat × Nat)
deriving Repr, DecidableEq

instance : Inhabited BatchOutcome :=
  ⟨⟨[], 0, 0, 0, 0, 0, 0, ⟨0, 0⟩, [], [], []⟩⟩

/-- The tail of `batchPay` once validation has passed and the payment loop
has produced `acc` (source lines 204–230): the checked statistics updates
(`totalPaymentsProcessed += successCount`, `totalVolumeProcessed +=
totalProcessed`, lines 205–206), then reconciliation —
`failedAmount = totalRequired - totalProcessed`, refunded to the sender with
a fatal revert when that call fails, then `excess = msg.value -
totalRequired`, likewise.  Neither subtraction can underflow: the loop only
adds amounts of validated payments, so `totalProcessed ≤ totalRequired`, and
line 150 established `totalRequired ≤ msg.value`. -/
def finishBatch (sender value timestamp totalRequired : Nat)
    (payments : List Payment) (s : ContractState) (env : Env)
    (acc : LoopAcc) : Except BatchError BatchOutcome :=
  if U256 ≤ s.totalPaymentsProcessed + acc.successCount then .error .Overflow
  else if U256 ≤ s.totalVolumeProcessed + acc.totalProcessed then .error .Overflow
  else if 0 < totalRequired - acc.totalProcessed ∧ env.refundOk = false then
    .error .RefundFailed
  else if 0 < value - totalRequired ∧ env.excessOk = false then
    .error .ExcessRefundFailed
  else .ok
    { results := acc.results
      successCount := acc.successCount
      failureCount := acc.failureCount
      totalProcessed := acc.totalProcessed
      totalRequired := totalRequired
      failedAmount := totalRequired - acc.totalProcessed
      excess := value - totalRequired
      finalState :=
        ⟨s.totalPaymentsProcessed + acc.successCount,
         s.totalVolumeProcessed + acc.totalProcessed⟩
      events :=
        .BatchPaymentInitiated sender payments.length totalRequired timestamp
          :: (acc.events ++ [.BatchPaymentCompleted sender acc.successCount
                acc.failureCount acc.totalProcessed])
      paymentTransfers := acc.transfers
      refundTransfers :=
        (if 0 < totalRequired - acc.totalProcessed then
          [(sender, totalRequired - acc.totalProcessed)] else [])
          ++ (if 0 < value - totalRequired then [(sender, value - totalRequired)] else []) }

/-- Source: `function batchPay(Payment[] calldata payments) external payable` with
the `validPayments` modifier (source lines 114–118 and 133–231).
`value` is `msg.value`, `timestamp` is `block.timestamp`. -/
def batchPay (sender value timestamp : Nat) (payments : List Payment)
    (s : ContractState) (env : Env) : Except BatchError BatchOutcome :=
  if payments.length = 0 then .error .EmptyBatch
  else if MAX_RECIPIENTS < payments.length then .error .BatchTooLarge
  else
    match computeTotalRequired payments 0 with
    | .error e => .error e
    | .ok totalRequired =>
      if value < totalRequired then .error .InsufficientFunds
      else
        finishBatch sender value timestamp totalRequired payments s env
          (processPayments sender env 0 payments)

/-- The summation loop of `estimateBatchCost` (source lines 243–245), with
the checked `total += payments[i].amount`. -/
def estimateGo : List Payment → Nat → Except BatchError Nat
  | [], total => .ok total
  | p :: rest, total =>
    if U256 ≤ total + p.amount then .error .Overflow
    else estimateGo rest (total + p.amount)

/-- Source: `function estimateBatchCost(Payment[] calldata payments) external pure`
(source lines 238–247). -/
def estimateBatchCost (payments : List Payment) : Except BatchError Nat :=
  estimateGo payments 0

/-- Source: `function getStats() external view` (lines 254–260). -/
def getStats (s : ContractState) : Nat × Nat :=
  (s.totalPaymentsProcessed, s.totalVolumeProcessed)

/-- Source: the `receive()` entry point, which unconditionally reverts with "Use batchPay function". -/
def receiveEth (_sender _value : Nat) : Except String Unit :=
  .error "Use batchPay function"

/-- Source: the `fallback()` entry point, which unconditionally reverts with "Function does not exist". -/
def fallbackEth (_sender _value : Nat) : Except String Unit :=
  .error "Function does not exist"

/-- The external entry points of the contract. -/
inductive Call where
  | batchPayCall (sender value timestamp : Nat) (payments : List Payment) (env : Env)
  | estimateCall (payments : List Payment)
  | statsCall
  | receiveCall (sender value : Nat)
  | fallbackCall (sender value : Nat)

/-- Whether a `Call` is a `batchPay` invocation. -/
def isBatchPayCall : Call → Bool
  | .batchPayCall .. => true
  | _ => false

/-- The observable effect of one transaction against the contract: the
storage afterwards, the events emitted, and the value transfers made.  A
reverting call (any `Except.error`, and every `receive`/`fallback` call)
leaves storage unchanged, emits nothing and transfers nothing — the EVM
rolls the transaction back. -/
structure StepOut where
  state : ContractState
  events : List Event
  transfers : List (Nat × Nat)
deriving Repr, DecidableEq

/-- One transaction against the contract. -/
def stepVoidTx (s : ContractState) : Call → StepOut
  | .batchPayCall sender value timestamp payments env =>
    match batchPay sender value timestamp payments s env with
    | .ok out => ⟨out.finalState, out.events, out.paymentTransfers ++ out.refundTransfers⟩
    | .error _ => ⟨s, [], []⟩
  | .estimateCall _ => ⟨s, [], []⟩
  | .statsCall => ⟨s, [], []⟩
  | .receiveCall _ _ => ⟨s, [], []⟩
  | .fallbackCall _ _ => ⟨s, [], []⟩

/-- Sum of the amounts of a batch (the mathematical, unwrapped sum). -/
def sumAmounts (payments : List Payment) : Nat :=
  (payments.map Payment.amount).sum

/-- A payment satisfying both per-payment validation checks. -/
def validPay (p : Payment) : Prop :=
  p.recipient ≠ 0 ∧ MIN_AMOUNT ≤ p.amount

instance (p : Payment) : Decidable (validPay p) := by
  unfold validPay; infer_instance

/-! ### Lemmas about the payment loop -/

theorem processPayments_results_length (sender : Nat) (env : Env) :
    ∀ (i : Nat) (ps : List Payment),
      (processPayments sender env i ps).results.length = ps.length := by
  intro i ps
  induction ps generalizing i with
  | nil => rfl
  | cons p rest ih =>
    simp only [processPayments]
    cases h : env.transferOk i <;> simp [h, ih]

theorem processPayments_counts (sender : Nat) (env : Env) :
    ∀ (i : Nat) (ps : List Payment),
      (processPayments sender env i ps).successCount
        + (processPayments sender env i ps).failureCount = ps.length := by
  intro i ps
  induction ps generalizing i with
  | nil => rfl
  | cons p rest ih =>
    have hr := ih (i + 1)
    simp only [processPayments]
    cases h : env.transferOk i <;> simp [h] <;> omega

theorem processPayments_totalProcessed_le (sender : Nat) (env : Env) :
    ∀ (i : Nat) (ps : List Payment),
      (processPayments sender env i ps).totalProcessed ≤ sumAmounts ps := by
  intro i ps
  induction ps generalizing i with
  | nil => simp [processPayments, sumAmounts]
  | cons p rest ih =>
    have hr := ih (i + 1)
    simp only [processPayments]
    cases h : env.transferOk i <;> simp [h, sumAmounts] at hr ⊢ <;> omega

theorem processPayments_results_get (sender : Nat) (env : Env) :
    ∀ (i : Nat) (ps : List Payment) (j : Nat) (hj : j < ps.length),
      (processPayments sender env i ps).results.get? j =
        some ⟨env.transferOk (i + j), (ps.get ⟨j, hj⟩).recipient, (ps.get ⟨j, hj⟩).amount⟩ := by
  intro i ps
  induction ps generalizing i with
  | nil => intro j hj; simp at hj
  | cons p rest ih =>
    intro j hj
    cases j with
    | zero =>
      simp only [processPayments]
      cases h : env.transferOk i <;> simp [h]
    | succ j' =>
      have hj' : j' < rest.length := Nat.lt_of_succ_lt_succ hj
      have hrec := ih (i + 1) j' hj'
      have hidx : i + 1 + j' = i + (j' + 1) := by omega
      simp only [processPayments]
      cases h : env.transferOk i <;>
        simp only [h, Bool.false_eq_true, ite_false, ite_true, List.get?_cons_succ,
          List.get_cons_succ] <;>
        rw [hrec, hidx]

theorem processPayments_successCount_filter (sender : Nat) (env : Env) :
    ∀ (i : Nat) (ps : List Payment),
      (processPayments sender env i ps).successCount
        = ((processPayments sender env i ps).results.filter (fun r => r.success)).length := by
  intro i ps
  induction ps generalizing i with
  | nil => rfl
  | cons p rest ih =>
    have hr := ih (i + 1)
    simp only [processPayments]
    cases h : env.transferOk i <;> simp [h, List.filter] <;> omega

theorem processPayments_failureCount_filter (sender : Nat) (env : Env) :
    ∀ (i : Nat) (ps : List Payment),
      (processPayments sender env i ps).failureCount
        = ((processPayments sender env i ps).results.filter (fun r => !r.success)).length := by
  intro i ps
  induction ps generalizing i with
  | nil => rfl
  | cons p rest ih =>
    have hr := ih (i + 1)
    simp only [processPayments]
    cases h : env.transferOk i <;> simp [h, List.filter] <;> omega

theorem processPayments_transfers_sum (sender : Nat) (env : Env) :
    ∀ (i : Nat) (ps : List Payment),
      ((processPayments sender env i ps).transfers.map Prod.snd).sum
        = (processPayments sender env i ps).totalProcessed := by
  intro i ps
  induction ps generalizing i with
  | nil => rfl
  | cons p rest ih =>
    have hr := ih (i + 1)
    simp only [processPayments]
    cases h : env.transferOk i <;> simp [h] <;> omega

theorem processPayments_failed_reason (sender : Nat) (env : Env) :
    ∀ (i : Nat) (ps : List Payment) (e : Event),
      e ∈ (processPayments sender env i ps).events →
      ∀ (se re a ix : Nat) (reason : String),
        e = .PaymentFailed se re a ix reason → reason = "Transfer failed" := by
  intro i ps
  induction ps generalizing i with
  | nil => intro e he; simp [processPayments] at he
  | cons p rest ih =>
    intro e he se re a ix reason hkind
    simp only [processPayments] at he
    rcases hb : env.transferOk i <;> rw [hb] at he <;> simp at he
    · rcases he with he | he
      · rw [he] at hkind
        injection hkind with h1 h2 h3 h4 h5
        exact h5.symm
      · exact ih (i + 1) e he se re a ix reason hkind
    · rcases he with he | he
      · rw [he] at hkind; cases hkind
      · exact ih (i + 1) e he se re a ix reason hkind

theorem processPayments_failed_mem (sender : Nat) (env : Env) :
    ∀ (i : Nat) (ps : List Payment) (j : Nat) (hj : j < ps.length),
      env.transferOk (i + j) = false →
      Event.PaymentFailed sender (ps.get ⟨j, hj⟩).recipient (ps.get ⟨j, hj⟩).amount (i + j)
          "Transfer failed" ∈ (processPayments sender env i ps).events := by
  intro i ps
  induction ps generalizing i with
  | nil => intro j hj; simp at hj
  | cons p rest ih =>
    intro j hj hfail
    cases j with
    | zero =>
      simp only [Nat.add_zero] at hfail
      simp [processPayments, hfail]
    | succ j' =>
      have hj' : j' < rest.length := Nat.lt_of_succ_lt_succ hj
      have hidx : i + 1 + j' = i + (j' + 1) := by omega
      have hrec := ih (i + 1) j' hj' (by rw [hidx]; exact hfail)
      rw [hidx] at hrec
      simp only [processPayments]
      cases h : env.transferOk i <;> simp [h] <;> simpa using hrec

/-! ### Lemmas about the validation loop -/

theorem sumAmounts_cons (p : Payment) (rest : List Payment) :
    sumAmounts (p :: rest) = p.amount + sumAmounts rest := by
  simp [sumAmounts]

theorem computeTotalRequired_ok_of_valid :
    ∀ (ps : List Payment) (acc : Nat), (∀ p ∈ ps, validPay p) →
      acc + sumAmounts ps < U256 →
      computeTotalRequired ps acc = .ok (acc + sumAmounts ps) := by
  intro ps
  induction ps with
  | nil => intro acc _ _; simp [computeTotalRequired, sumAmounts]
  | cons p rest ih =>
    intro acc hvalid hb
    have hp := hvalid p (by simp)
    have hrest : ∀ q ∈ rest, validPay q := fun q hq => hvalid q (by simp [hq])
    rw [sumAmounts_cons] at hb
    have h2 : ¬ p.amount < MIN_AMOUNT := by have := hp.2; omega
    have h3 : ¬ U256 ≤ acc + p.amount := by omega
    simp only [computeTotalRequired, if_neg hp.1, if_neg h2, if_neg h3]
    rw [ih (acc + p.amount) hrest (by omega)]
    simp only [sumAmounts_cons, Except.ok.injEq]
    omega

theorem computeTotalRequired_ok_inv :
    ∀ (ps : List Payment) (acc n : Nat),
      computeTotalRequired ps acc = .ok n →
      n = acc + sumAmounts ps ∧ ∀ p ∈ ps, validPay p := by
  intro ps
  induction ps with
  | nil =>
    intro acc n h
    simp only [computeTotalRequired, Except.ok.injEq] at h
    simp [sumAmounts, h]
  | cons p rest ih =>
    intro acc n h
    simp only [computeTotalRequired] at h
    by_cases h1 : p.recipient = 0
    · rw [if_pos h1] at h; simp at h
    rw [if_neg h1] at h
    by_cases h2 : p.amount < MIN_AMOUNT
    · rw [if_pos h2] at h; simp at h
    rw [if_neg h2] at h
    by_cases h3 : U256 ≤ acc + p.amount
    · rw [if_pos h3] at h; simp at h
    rw [if_neg h3] at h
    obtain ⟨hn, hv⟩ := ih (acc + p.amount) n h
    have hsum := sumAmounts_cons p rest
    refine ⟨by omega, ?_⟩
    intro q hq
    rcases List.mem_cons.mp hq with rfl | hq'
    · exact ⟨h1, by omega⟩
    · exact hv q hq'

theorem computeTotalRequired_error_invalid :
    ∀ (ps : List Payment) (acc : Nat), acc + sumAmounts ps < U256 →
      (computeTotalRequired ps acc = .error .InvalidRecipient ↔
        ∃ l₁ q l₂, ps = l₁ ++ q :: l₂ ∧ (∀ x ∈ l₁, validPay x) ∧ q.recipient = 0) := by
  intro ps
  induction ps with
  | nil =>
    intro acc hb
    constructor
    · intro h; simp [computeTotalRequired] at h
    · rintro ⟨l₁, q, l₂, habs, -, -⟩
      exact absurd habs (by simp)
  | cons p rest ih =>
    intro acc hb
    have hsum := sumAmounts_cons p rest
    simp only [computeTotalRequired]
    by_cases h1 : p.recipient = 0
    · rw [if_pos h1]
      constructor
      · intro _; exact ⟨[], p, rest, rfl, by simp, h1⟩
      · intro _; rfl
    rw [if_neg h1]
    by_cases h2 : p.amount < MIN_AMOUNT
    · rw [if_pos h2]
      constructor
      · intro h; simp at h
      · rintro ⟨l₁, q, l₂, heq, hval, hq0⟩
        cases l₁ with
        | nil =>
          simp only [List.nil_append, List.cons.injEq] at heq
          have : p.recipient = 0 := by rw [heq.1]; exact hq0
          exact absurd this h1
        | cons a l₁' =>
          simp only [List.cons_append, List.cons.injEq] at heq
          have hva := hval a (by simp)
          have : MIN_AMOUNT ≤ p.amount := by rw [heq.1]; exact hva.2
          omega
    rw [if_neg h2]
    have h3 : ¬ U256 ≤ acc + p.amount := by omega
    rw [if_neg h3]
    rw [ih (acc + p.amount) (by omega)]
    constructor
    · rintro ⟨l₁, q, l₂, heq, hval, hq0⟩
      refine ⟨p :: l₁, q, l₂, by rw [List.cons_append, heq], ?_, hq0⟩
      intro x hx
      rcases List.mem_cons.mp hx with rfl | hx'
      · exact ⟨h1, by omega⟩
      · exact hval x hx'
    · rintro ⟨l₁, q, l₂, heq, hval, hq0⟩
      cases l₁ with
      | nil =>
        simp only [List.nil_append, List.cons.injEq] at heq
        have : p.recipient = 0 := by rw [heq.1]; exact hq0
        exact absurd this h1
      | cons a l₁' =>
        simp only [List.cons_append, List.cons.injEq] at heq
        refine ⟨l₁', q, l₂, heq.2, ?_, hq0⟩
        intro x hx
        exact hval x (by simp [hx])

theorem computeTotalRequired_error_small :
    ∀ (ps : List Payment) (acc : Nat), acc + sumAmounts ps < U256 →
      (computeTotalRequired ps acc = .error .AmountTooSmall ↔
        ∃ l₁ q l₂, ps = l₁ ++ q :: l₂ ∧ (∀ x ∈ l₁, validPay x) ∧ q.recipient ≠ 0 ∧
          q.amount < MIN_AMOUNT) := by
  intro ps
  induction ps with
  | nil =>
    intro acc hb
    constructor
    · intro h; simp [computeTotalRequired] at h
    · rintro ⟨l₁, q, l₂, habs, -, -⟩
      exact absurd habs (by simp)
  | cons p rest ih =>
    intro acc hb
    have hsum := sumAmounts_cons p rest
    simp only [computeTotalRequired]
    by_cases h1 : p.recipient = 0
    · rw [if_pos h1]
      constructor
      · intro h; simp at h
      · rintro ⟨l₁, q, l₂, heq, hval, hq0, -⟩
        cases l₁ with
        | nil =>
          simp only [List.nil_append, List.cons.injEq] at heq
          exact (hq0 (by rw [← heq.1]; exact h1)).elim
        | cons a l₁' =>
          simp only [List.cons_append, List.cons.injEq] at heq
          have hva := hval a (by simp)
          exact (hva.1 (by rw [← heq.1]; exact h1)).elim
    rw [if_neg h1]
    by_cases h2 : p.amount < MIN_AMOUNT
    · rw [if_pos h2]
      constructor
      · intro _; exact ⟨[], p, rest, rfl, by simp, h1, h2⟩
      · intro _; rfl
    rw [if_neg h2]
    have h3 : ¬ U256 ≤ acc + p.amount := by omega
    rw [if_neg h3]
    rw [ih (acc + p.amount) (by omega)]
    constructor
    · rintro ⟨l₁, q, l₂, heq, hval, hq0, hqa⟩
      refine ⟨p :: l₁, q, l₂, by rw [List.cons_append, heq], ?_, hq0, hqa⟩
      intro x hx
      rcases List.mem_cons.mp hx with rfl | hx'
      · exact ⟨h1, by omega⟩
      · exact hval x hx'
    · rintro ⟨l₁, q, l₂, heq, hval, hq0, hqa⟩
      cases l₁ with
      | nil =>
        simp only [List.nil_append, List.cons.injEq] at heq
        have : q.amount < MIN_AMOUNT := hqa
        have hpq : p.amount = q.amount := by rw [heq.1]
        omega
      | cons a l₁' =>
        simp only [List.cons_append, List.cons.injEq] at heq
        refine ⟨l₁', q, l₂, heq.2, ?_, hq0, hqa⟩
        intro x hx
        exact hval x (by simp [hx])

theorem estimateGo_ok :
    ∀ (ps : List Payment) (total : Nat), total + sumAmounts ps < U256 →
      estimateGo ps total = .ok (total + sumAmounts ps) := by
  intro ps
  induction ps with
  | nil => intro total _; simp [estimateGo, sumAmounts]
  | cons p rest ih =>
    intro total hb
    rw [sumAmounts_cons] at hb
    have h3 : ¬ U256 ≤ total + p.amount := by omega
    simp only [estimateGo, if_neg h3]
    rw [ih (total + p.amount) (by omega)]
    simp only [sumAmounts_cons, Except.ok.injEq]
    omega

/-! ### Inversion lemmas for a completed `batchPay` call -/

theorem finishBatch_ok_inv
    {sender value timestamp totalRequired : Nat} {payments : List Payment}
    {s : ContractState} {env : Env} {acc : LoopAcc} {out : BatchOutcome}
    (h : finishBatch sender value timestamp totalRequired payments s env acc = .ok out) :
    s.totalPaymentsProcessed + acc.successCount < U256 ∧
    s.totalVolumeProcessed + acc.totalProcessed < U256 ∧
    (0 < totalRequired - acc.totalProcessed → env.refundOk = true) ∧
    (0 < value - totalRequired → env.excessOk = true) ∧
    out =
      { results := acc.results
        successCount := acc.successCount
        failureCount := acc.failureCount
        totalProcessed := acc.totalProcessed
        totalRequired := totalRequired
        failedAmount := totalRequired - acc.totalProcessed
        excess := value - totalRequired
        finalState :=
          ⟨s.totalPaymentsProcessed + acc.successCount,
           s.totalVolumeProcessed + acc.totalProcessed⟩
        events :=
          .BatchPaymentInitiated sender payments.length totalRequired timestamp
            :: (acc.events ++ [.BatchPaymentCompleted sender acc.successCount
                  acc.failureCount acc.totalProcessed])
        paymentTransfers := acc.transfers
        refundTransfers :=
          (if 0 < totalRequired - acc.totalProcessed then
            [(sender, totalRequired - acc.totalProcessed)] else [])
            ++ (if 0 < value - totalRequired then
                  [(sender, value - totalRequired)] else []) } := by
  unfold finishBatch at h
  by_cases h1 : U256 ≤ s.totalPaymentsProcessed + acc.successCount
  · rw [if_pos h1] at h; simp at h
  rw [if_neg h1] at h
  by_cases h2 : U256 ≤ s.totalVolumeProcessed + acc.totalProcessed
  · rw [if_pos h2] at h; simp at h
  rw [if_neg h2] at h
  by_cases h3 : 0 < totalRequired - acc.totalProcessed ∧ env.refundOk = false
  · rw [if_pos h3] at h; simp at h
  rw [if_neg h3] at h
  by_cases h4 : 0 < value - totalRequired ∧ env.excessOk = false
  · rw [if_pos h4] at h; simp at h
  rw [if_neg h4] at h
  simp only [Except.ok.injEq] at h
  refine ⟨by omega, by omega, ?_, ?_, h.symm⟩
  · intro hpos
    by_contra hr
    exact h3 ⟨hpos, by simpa using hr⟩
  · intro hpos
    by_contra hr
    exact h4 ⟨hpos, by simpa using hr⟩

theorem batchPay_ok_inv
    {sender value timestamp : Nat} {payments : List Payment} {s : ContractState}
    {env : Env} {out : BatchOutcome}
    (h : batchPay sender value timestamp payments s env = .ok out) :
    0 < payments.length ∧ payments.length ≤ MAX_RECIPIENTS ∧
    (∀ p ∈ payments, validPay p) ∧
    sumAmounts payments ≤ value ∧
    computeTotalRequired payments 0 = .ok (sumAmounts payments) ∧
    finishBatch sender value timestamp (sumAmounts payments) payments s env
        (processPayments sender env 0 payments) = .ok out := by
  unfold batchPay at h
  by_cases h0 : payments.length = 0
  · rw [if_pos h0] at h; simp at h
  rw [if_neg h0] at h
  by_cases h1 : MAX_RECIPIENTS < payments.length
  · rw [if_pos h1] at h; simp at h
  rw [if_neg h1] at h
  cases hctr : computeTotalRequired payments 0 with
  | error e => rw [hctr] at h; simp at h
  | ok n =>
    rw [hctr] at h
    simp only [] at h
    by_cases h2 : value < n
    · rw [if_pos h2] at h; simp at h
    rw [if_neg h2] at h
    obtain ⟨hn, hv⟩ := computeTotalRequired_ok_inv payments 0 n hctr
    have hn' : n = sumAmounts payments := by omega
    subst hn'
    exact ⟨by omega, by omega, hv, by omega, rfl, h⟩

theorem estimateGo_ok_inv :
    ∀ (ps : List Payment) (total n : Nat),
      estimateGo ps total = .ok n → n = total + sumAmounts ps := by
  intro ps
  induction ps with
  | nil =>
    intro total n h
    simp only [estimateGo, Except.ok.injEq] at h
    simp [sumAmounts, h]
  | cons p rest ih =>
    intro total n h
    simp only [estimateGo] at h
    by_cases h3 : U256 ≤ total + p.amount
    · rw [if_pos h3] at h; simp at h
    rw [if_neg h3] at h
    have := ih (total + p.amount) n h
    have hsum := sumAmounts_cons p rest
    omega

theorem batchPay_run
    (sender value timestamp : Nat) (payments : List Payment) (s : ContractState)
    (env : Env)
    (hlen0 : 0 < payments.length) (hlen1 : payments.length ≤ MAX_RECIPIENTS)
    (hv : ∀ p ∈ payments, validPay p) (hbound : sumAmounts payments < U256)
    (hval : sumAmounts payments ≤ value) :
    batchPay sender value timestamp payments s env =
      finishBatch sender value timestamp (sumAmounts payments) payments s env
        (processPayments sender env 0 payments) := by
  unfold batchPay
  rw [if_neg (by omega), if_neg (by omega)]
  have hctr := computeTotalRequired_ok_of_valid payments 0 hv (by omega)
  rw [Nat.zero_add] at hctr
  rw [hctr]
  simp only []
  rw [if_neg (by omega)]

theorem computeTotalRequired_error_cases :
    ∀ (ps : List Payment) (acc : Nat) (e : BatchError),
      computeTotalRequired ps acc = .error e →
      e = .InvalidRecipient ∨ e = .AmountTooSmall ∨ e = .Overflow := by
  intro ps
  induction ps with
  | nil => intro acc e h; simp [computeTotalRequired] at h
  | cons p rest ih =>
    intro acc e h
    simp only [computeTotalRequired] at h
    by_cases h1 : p.recipient = 0
    · rw [if_pos h1] at h
      simp only [Except.error.injEq] at h
      exact Or.inl h.symm
    rw [if_neg h1] at h
    by_cases h2 : p.amount < MIN_AMOUNT
    · rw [if_pos h2] at h
      simp only [Except.error.injEq] at h
      exact Or.inr (Or.inl h.symm)
    rw [if_neg h2] at h
    by_cases h3 : U256 ≤ acc + p.amount
    · rw [if_pos h3] at h
      simp only [Except.error.injEq] at h
      exact Or.inr (Or.inr h.symm)
    rw [if_neg h3] at h
    exact ih (acc + p.amount) e h

theorem finishBatch_error_cases
    {sender value timestamp totalRequired : Nat} {payments : List Payment}
    {s : ContractState} {env : Env} {acc : LoopAcc} {e : BatchError}
    (h : finishBatch sender value timestamp totalRequired payments s env acc = .error e) :
    e = .Overflow ∨ e = .RefundFailed ∨ e = .ExcessRefundFailed := by
  unfold finishBatch at h
  by_cases h1 : U256 ≤ s.totalPaymentsProcessed + acc.successCount
  · rw [if_pos h1] at h
    simp only [Except.error.injEq] at h
    exact Or.inl h.symm
  rw [if_neg h1] at h
  by_cases h2 : U256 ≤ s.totalVolumeProcessed + acc.totalProcessed
  · rw [if_pos h2] at h
    simp only [Except.error.injEq] at h
    exact Or.inl h.symm
  rw [if_neg h2] at h
  by_cases h3 : 0 < totalRequired - acc.totalProcessed ∧ env.refundOk = false
  · rw [if_pos h3] at h
    simp only [Except.error.injEq] at h
    exact Or.inr (Or.inl h.symm)
  rw [if_neg h3] at h
  by_cases h4 : 0 < value - totalRequired ∧ env.excessOk = false
  · rw [if_pos h4] at h
    simp only [Except.error.injEq] at h
    exact Or.inr (Or.inr h.symm)
  rw [if_neg h4] at h
  simp at h

theorem batchPay_error_inv
    {sender value timestamp : Nat} {payments : List Payment} {s : ContractState}
    {env : Env} {e : BatchError}
    (h : batchPay sender value timestamp payments s env = .error e) :
    (payments.length = 0 ∧ e = .EmptyBatch) ∨
    (0 < payments.length ∧ MAX_RECIPIENTS < payments.length ∧ e = .BatchTooLarge) ∨
    (0 < payments.length ∧ payments.length ≤ MAX_RECIPIENTS ∧
      computeTotalRequired payments 0 = .error e) ∨
    (0 < payments.length ∧ payments.length ≤ MAX_RECIPIENTS ∧
      ∃ n, computeTotalRequired payments 0 = .ok n ∧ value < n ∧
        e = .InsufficientFunds) ∨
    (0 < payments.length ∧ payments.length ≤ MAX_RECIPIENTS ∧
      ∃ n, computeTotalRequired payments 0 = .ok n ∧ n ≤ value ∧
        finishBatch sender value timestamp n payments s env
          (processPayments sender env 0 payments) = .error e) := by
  unfold batchPay at h
  by_cases h0 : payments.length = 0
  · rw [if_pos h0] at h
    simp only [Except.error.injEq] at h
    exact Or.inl ⟨h0, h.symm⟩
  rw [if_neg h0] at h
  by_cases h1 : MAX_RECIPIENTS < payments.length
  · rw [if_pos h1] at h
    simp only [Except.error.injEq] at h
    exact Or.inr (Or.inl ⟨by omega, h1, h.symm⟩)
  rw [if_neg h1] at h
  cases hctr : computeTotalRequired payments 0 with
  | error e' =>
    rw [hctr] at h
    simp only [Except.error.injEq] at h
    subst h
    exact Or.inr (Or.inr (Or.inl ⟨by omega, by omega, rfl⟩))
  | ok n =>
    rw [hctr] at h
    simp only [] at h
    by_cases h2 : value < n
    · rw [if_pos h2] at h
      simp only [Except.error.injEq] at h
      exact Or.inr (Or.inr (Or.inr (Or.inl ⟨by omega, by omega, n, rfl, h2, h.symm⟩)))
    rw [if_neg h2] at h
    exact Or.inr (Or.inr (Or.inr (Or.inr ⟨by omega, by omega, n, rfl, by omega, h⟩)))

theorem estimateGo_of_computeTotalRequired :
    ∀ (ps : List Payment) (acc n : Nat),
      computeTotalRequired ps acc = .ok n → estimateGo ps acc = .ok n := by
  intro ps
  induction ps with
  | nil => intro acc n h; simpa [computeTotalRequired, estimateGo] using h
  | cons p rest ih =>
    intro acc n h
    simp only [computeTotalRequired] at h
    by_cases h1 : p.recipient = 0
    · rw [if_pos h1] at h; simp at h
    rw [if_neg h1] at h
    by_cases h2 : p.amount < MIN_AMOUNT
    · rw [if_pos h2] at h; simp at h
    rw [if_neg h2] at h
    by_cases h3 : U256 ≤ acc + p.amount
    · rw [if_pos h3] at h; simp at h
    rw [if_neg h3] at h
    simp only [estimateGo, if_neg h3]
    exact ih (acc + p.amount) n h

/-! ### Concrete environments and outcomes used by witnesses -/

deriving instance DecidableEq for Except

/-- An environment in which every external call succeeds. -/
def envAllOk : Env := ⟨fun _ => true, fun _ => none, true, true⟩

/-- The outcome of a small completed call: one payment of `MIN_AMOUNT`
to recipient `2`, funded exactly, every external call succeeding. -/
def outOnePay : BatchOutcome :=
  ((batchPay 1 MIN_AMOUNT 0 [⟨2, MIN_AMOUNT⟩] ⟨0, 0⟩ envAllOk).toOption).getD default

/-! ### Claim theorems -/

/-- Claim C1: for every `batchPay` call that completes, the amounts satisfy
`totalProcessed + failedAmount + excess = valueAttached`, with
`failedAmount = totalRequired - totalProcessed` and
`excess = valueAttached - totalRequired`; both reconciliation transfers go to
the sender and together return `failedAmount + excess`, so the sender ends up
having spent exactly `totalProcessed`. -/
theorem claim_C1_conservation
    (sender value timestamp : Nat) (payments : List Payment) (s : ContractState)
    (env : Env) (out : BatchOutcome)
    (h : batchPay sender value timestamp payments s env = .ok out) :
    out.totalProcessed + out.failedAmount + out.excess = value ∧
    out.failedAmount = out.totalRequired - out.totalProcessed ∧
    out.excess = value - out.totalRequired ∧
    (∀ tr ∈ out.refundTransfers, tr.1 = sender) ∧
    (out.refundTransfers.map Prod.snd).sum = out.failedAmount + out.excess ∧
    value - (out.refundTransfers.map Prod.snd).sum = out.totalProcessed := by
  obtain ⟨hlen0, hlen1, hv, hval, hctr, hfin⟩ := batchPay_ok_inv h
  obtain ⟨hs1, hs2, hr, he, hout⟩ := finishBatch_ok_inv hfin
  have htp : (processPayments sender env 0 payments).totalProcessed ≤ sumAmounts payments :=
    processPayments_totalProcessed_le sender env 0 payments
  subst hout
  refine ⟨?_, rfl, rfl, ?_, ?_, ?_⟩
  · simp only []
    omega
  · intro tr htr
    simp only [List.mem_append] at htr
    rcases htr with h' | h' <;> split_ifs at h' <;> simp at h' <;> simp [h']
  · simp only []
    split_ifs <;> simp <;> omega
  · simp only []
    split_ifs <;> simp <;> omega

theorem claim_C1_witness :
    batchPay 1 MIN_AMOUNT 0 [⟨2, MIN_AMOUNT⟩] ⟨0, 0⟩ envAllOk = .ok outOnePay ∧
    outOnePay.totalProcessed + outOnePay.failedAmount + outOnePay.excess = MIN_AMOUNT := by
  have h : batchPay 1 MIN_AMOUNT 0 [⟨2, MIN_AMOUNT⟩] ⟨0, 0⟩ envAllOk = .ok outOnePay := by
    decide
  exact ⟨h,
    (claim_C1_conservation 1 MIN_AMOUNT 0 [⟨2, MIN_AMOUNT⟩] ⟨0, 0⟩ envAllOk outOnePay h).1⟩

/-- Claim C5: every completed `batchPay` call returns one `PaymentResult` per
input payment, in input order: the results list has the batch's length and
the entry at each index carries that payment's recipient and amount (with the
success bit of its transfer attempt). -/
theorem claim_C5_results_shape
    (sender value timestamp : Nat) (payments : List Payment) (s : ContractState)
    (env : Env) (out : BatchOutcome)
    (h : batchPay sender value timestamp payments s env = .ok out) :
    out.results.length = payments.length ∧
    ∀ (j : Nat) (hj : j < payments.length),
      out.results.get? j = some ⟨env.transferOk j, (payments.get ⟨j, hj⟩).recipient,
        (payments.get ⟨j, hj⟩).amount⟩ := by
  obtain ⟨-, -, -, -, -, hfin⟩ := batchPay_ok_inv h
  obtain ⟨-, -, -, -, hout⟩ := finishBatch_ok_inv hfin
  subst hout
  constructor
  · simpa using processPayments_results_length sender env 0 payments
  · intro j hj
    simpa using processPayments_results_get sender env 0 payments j hj

theorem claim_C5_witness :
    batchPay 1 MIN_AMOUNT 0 [⟨2, MIN_AMOUNT⟩] ⟨0, 0⟩ envAllOk = .ok outOnePay ∧
    outOnePay.results.length = 1 := by
  have h : batchPay 1 MIN_AMOUNT 0 [⟨2, MIN_AMOUNT⟩] ⟨0, 0⟩ envAllOk = .ok outOnePay := by
    decide
  refine ⟨h, ?_⟩
  have := (claim_C5_results_shape 1 MIN_AMOUNT 0 [⟨2, MIN_AMOUNT⟩] ⟨0, 0⟩ envAllOk
    outOnePay h).1
  simpa using this

/-- Claim C7: `estimateBatchCost` returns the sum of the batch's amounts,
performs no validation beyond structural well-formedness (in particular it
accepts batches `batchPay` would reject), mutates no state, and agrees with
the `totalRequired` computed inside `batchPay` whenever the latter's
validation loop completes. -/
theorem claim_C7_estimate_consistent
    (payments : List Payment) (s : ContractState) :
    (sumAmounts payments < U256 →
      estimateBatchCost payments = .ok (sumAmounts payments)) ∧
    stepVoidTx s (.estimateCall payments) = ⟨s, [], []⟩ ∧
    (∀ n, computeTotalRequired payments 0 = .ok n →
      estimateBatchCost payments = .ok n) := by
  refine ⟨?_, rfl, ?_⟩
  · intro hb
    have := estimateGo_ok payments 0 (by omega)
    simpa [estimateBatchCost] using this
  · intro n h
    exact estimateGo_of_computeTotalRequired payments 0 n h

theorem claim_C7_witness :
    sumAmounts [⟨2, MIN_AMOUNT⟩] < U256 ∧
    estimateBatchCost [⟨2, MIN_AMOUNT⟩] = .ok (sumAmounts [⟨2, MIN_AMOUNT⟩]) := by
  have hb : sumAmounts [⟨2, MIN_AMOUNT⟩] < U256 := by decide
  exact ⟨hb, (claim_C7_estimate_consistent [⟨2, MIN_AMOUNT⟩] ⟨0, 0⟩).1 hb⟩

/-- Claim C9: a plain value transfer (`receive`) and a call to a non-existent
function (`fallback`) always revert, and no entry point other than `batchPay`
changes the contract's storage, emits an event, or moves value — the contract
can only be funded and its statistics only be reached through `batchPay`. -/
theorem claim_C9_only_batchPay
    (s : ContractState) (sender value : Nat) (c : Call)
    (hc : isBatchPayCall c = false) :
    receiveEth sender value = .error "Use batchPay function" ∧
    fallbackEth sender value = .error "Function does not exist" ∧
    stepVoidTx s c = ⟨s, [], []⟩ := by
  refine ⟨rfl, rfl, ?_⟩
  cases c with
  | batchPayCall a b d e f => simp [isBatchPayCall] at hc
  | estimateCall ps => rfl
  | statsCall => rfl
  | receiveCall a b => rfl
  | fallbackCall a b => rfl

theorem claim_C9_witness :
    isBatchPayCall (Call.receiveCall 1 5) = false ∧
    stepVoidTx ⟨3, 4⟩ (Call.receiveCall 1 5) = ⟨⟨3, 4⟩, [], []⟩ :=
  ⟨rfl, (claim_C9_only_batchPay ⟨3, 4⟩ 1 5 (Call.receiveCall 1 5) rfl).2.2⟩

/-- A two-payment batch whose amounts sum to exactly `2^256`, past the
largest `uint256`. -/
def overflowBatch : List Payment := [⟨1, 2 ^ 255⟩, ⟨2, 2 ^ 255⟩]

/-- Claim C10: the amount summations in `batchPay` and `estimateBatchCost`
are checked: on `overflowBatch`, whose amounts sum to `2^256`, both calls
revert with the overflow panic instead of wrapping; and whenever either
summation completes, the computed total is the true mathematical sum, so a
wrapped sum can never understate the required total. -/
theorem claim_C10_checked_overflow
    (sender value timestamp : Nat) (s : ContractState) (env : Env) :
    batchPay sender value timestamp overflowBatch s env = .error .Overflow ∧
    estimateBatchCost overflowBatch = .error .Overflow ∧
    (∀ (payments : List Payment) (n : Nat),
      computeTotalRequired payments 0 = .ok n → n = sumAmounts payments) ∧
    (∀ (payments : List Payment) (n : Nat),
      estimateBatchCost payments = .ok n → n = sumAmounts payments) := by
  have hctr : computeTotalRequired overflowBatch 0 = .error .Overflow := by decide
  refine ⟨?_, by decide, ?_, ?_⟩
  · unfold batchPay
    rw [if_neg (by decide), if_neg (by decide), hctr]
  · intro payments n h
    have := (computeTotalRequired_ok_inv payments 0 n h).1
    omega
  · intro payments n h
    have := estimateGo_ok_inv payments 0 n h
    omega

theorem claim_C10_witness :
    computeTotalRequired [⟨2, MIN_AMOUNT⟩] 0 = .ok MIN_AMOUNT ∧
    MIN_AMOUNT = sumAmounts [⟨2, MIN_AMOUNT⟩] := by
  have h : computeTotalRequired [⟨2, MIN_AMOUNT⟩] 0 = .ok MIN_AMOUNT := by decide
  exact ⟨h, (claim_C10_checked_overflow 0 0 0 ⟨0, 0⟩ envAllOk).2.2.1 _ _ h⟩

/-- An environment in which every payment transfer fails but both
reconciliation calls succeed. -/
def envAllFail : Env := ⟨fun _ => false, fun _ => none, true, true⟩

/-- Claim C2: once validation has passed, no individual transfer failure
aborts `batchPay`: whatever the per-payment outcomes, the call completes
(provided only that reconciliation and the statistics updates themselves do
not revert), every failed payment is recorded as `{success := false}` with
its recipient and amount, `failureCount` counts exactly the failures, and the
loop reaches every payment. -/
theorem claim_C2_continue_on_error
    (sender value timestamp : Nat) (payments : List Payment) (s : ContractState)
    (env : Env)
    (hlen0 : 0 < payments.length) (hlen1 : payments.length ≤ MAX_RECIPIENTS)
    (hv : ∀ p ∈ payments, validPay p) (hbound : sumAmounts payments < U256)
    (hval : sumAmounts payments ≤ value)
    (hstats1 : s.totalPaymentsProcessed + payments.length < U256)
    (hstats2 : s.totalVolumeProcessed + sumAmounts payments < U256)
    (hrefund : env.refundOk = true) (hexcess : env.excessOk = true) :
    (batchPay sender value timestamp payments s env).isOk = true ∧
    ∀ out, batchPay sender value timestamp payments s env = .ok out →
      out.results.length = payments.length ∧
      out.failureCount = (out.results.filter (fun r => !r.success)).length ∧
      ∀ (j : Nat) (hj : j < payments.length), env.transferOk j = false →
        out.results.get? j = some ⟨false, (payments.get ⟨j, hj⟩).recipient,
          (payments.get ⟨j, hj⟩).amount⟩ := by
  have hcounts := processPayments_counts sender env 0 payments
  have htple := processPayments_totalProcessed_le sender env 0 payments
  constructor
  · rw [batchPay_run sender value timestamp payments s env hlen0 hlen1 hv hbound hval]
    unfold finishBatch
    rw [if_neg (by omega), if_neg (by omega), if_neg (by simp [hrefund]),
      if_neg (by simp [hexcess])]
    rfl
  · intro out h
    obtain ⟨-, -, -, -, -, hfin⟩ := batchPay_ok_inv h
    obtain ⟨-, -, -, -, hout⟩ := finishBatch_ok_inv hfin
    subst hout
    refine ⟨?_, ?_, ?_⟩
    · simpa using processPayments_results_length sender env 0 payments
    · simpa using processPayments_failureCount_filter sender env 0 payments
    · intro j hj hfail
      have := processPayments_results_get sender env 0 payments j hj
      rw [Nat.zero_add] at this
      simpa [hfail] using this

theorem claim_C2_witness :
    (0 < ([⟨2, MIN_AMOUNT⟩] : List Payment).length) ∧
    (batchPay 1 MIN_AMOUNT 0 [⟨2, MIN_AMOUNT⟩] ⟨0, 0⟩ envAllFail).isOk = true := by
  refine ⟨by decide, (claim_C2_continue_on_error 1 MIN_AMOUNT 0 [⟨2, MIN_AMOUNT⟩] ⟨0, 0⟩
    envAllFail (by decide) (by decide) (by decide) (by decide) (by decide) (by decide)
    (by decide) rfl rfl).1⟩

/-- Monotonicity of the two statistics counters under any single
transaction. -/
theorem stepVoidTx_monotone (s : ContractState) (c : Call) :
    s.totalPaymentsProcessed ≤ (stepVoidTx s c).state.totalPaymentsProcessed ∧
    s.totalVolumeProcessed ≤ (stepVoidTx s c).state.totalVolumeProcessed := by
  cases c with
  | batchPayCall sender value timestamp payments env =>
    simp only [stepVoidTx]
    cases hb : batchPay sender value timestamp payments s env with
    | error e => exact ⟨le_refl _, le_refl _⟩
    | ok out =>
      obtain ⟨-, -, -, -, -, hfin⟩ := batchPay_ok_inv hb
      obtain ⟨-, -, -, -, hout⟩ := finishBatch_ok_inv hfin
      subst hout
      simp
  | estimateCall ps => exact ⟨le_refl _, le_refl _⟩
  | statsCall => exact ⟨le_refl _, le_refl _⟩
  | receiveCall a b => exact ⟨le_refl _, le_refl _⟩
  | fallbackCall a b => exact ⟨le_refl _, le_refl _⟩

/-- Claim C6: across every transaction the statistics counters are
monotonically non-decreasing, and a completed `batchPay` call increases
`totalPaymentsProcessed` by exactly its `successCount` (the number of
successful transfers, counted once each) and `totalVolumeProcessed` by
exactly its `totalProcessed`, which never exceeds the batch's amount sum
(in particular never `valueAttached`, which is at least that sum). -/
theorem claim_C6_stats
    (s : ContractState) (c : Call)
    (sender value timestamp : Nat) (payments : List Payment) (env : Env)
    (out : BatchOutcome)
    (h : batchPay sender value timestamp payments s env = .ok out) :
    s.totalPaymentsProcessed ≤ (stepVoidTx s c).state.totalPaymentsProcessed ∧
    s.totalVolumeProcessed ≤ (stepVoidTx s c).state.totalVolumeProcessed ∧
    out.finalState.totalPaymentsProcessed
      = s.totalPaymentsProcessed + out.successCount ∧
    out.finalState.totalVolumeProcessed
      = s.totalVolumeProcessed + out.totalProcessed ∧
    out.successCount = (out.results.filter (fun r => r.success)).length ∧
    out.totalProcessed ≤ sumAmounts payments ∧
    sumAmounts payments ≤ value := by
  obtain ⟨hm1, hm2⟩ := stepVoidTx_monotone s c
  obtain ⟨-, -, -, hval, -, hfin⟩ := batchPay_ok_inv h
  obtain ⟨-, -, -, -, hout⟩ := finishBatch_ok_inv hfin
  subst hout
  refine ⟨hm1, hm2, rfl, rfl, ?_, ?_, hval⟩
  · simpa using processPayments_successCount_filter sender env 0 payments
  · simpa using processPayments_totalProcessed_le sender env 0 payments

theorem claim_C6_witness :
    batchPay 1 MIN_AMOUNT 0 [⟨2, MIN_AMOUNT⟩] ⟨0, 0⟩ envAllOk = .ok outOnePay ∧
    outOnePay.finalState.totalPaymentsProcessed = 0 + outOnePay.successCount := by
  have h : batchPay 1 MIN_AMOUNT 0 [⟨2, MIN_AMOUNT⟩] ⟨0, 0⟩ envAllOk = .ok outOnePay := by
    decide
  refine ⟨h, ?_⟩
  have := (claim_C6_stats ⟨0, 0⟩ Call.statsCall 1 MIN_AMOUNT 0 [⟨2, MIN_AMOUNT⟩]
    envAllOk outOnePay h).2.2.1
  simpa using this

/-- An environment in which the single transfer fails and its low-level call
returns revert data ("a reason"), while both reconciliation calls succeed. -/
def envFailWithReason : Env :=
  ⟨fun _ => false, fun _ => some "recipient reverted", true, true⟩

/-- The outcome of the completed call in which the one transfer fails with
revert data attached. -/
def outFailOne : BatchOutcome :=
  ((batchPay 1 MIN_AMOUNT 0 [⟨2, MIN_AMOUNT⟩] ⟨0, 0⟩ envFailWithReason).toOption).getD
    default

/-- Claim C8 fails on the code: even when the transfer primitive returns a
failure reason (`transferReason 0 = some "recipient reverted"`), the emitted
`PaymentFailed` event carries the fixed string "Transfer failed" — the source
discards the call's return data (`(bool success, ) = ...`), so the reason is
never propagated. -/
theorem claim_C8_counterexample :
    envFailWithReason.transferReason 0 = some "recipient reverted" ∧
    batchPay 1 MIN_AMOUNT 0 [⟨2, MIN_AMOUNT⟩] ⟨0, 0⟩ envFailWithReason = .ok outFailOne ∧
    Event.PaymentFailed 1 2 MIN_AMOUNT 0 "Transfer failed" ∈ outFailOne.events ∧
    ¬ Event.PaymentFailed 1 2 MIN_AMOUNT 0 "recipient reverted" ∈ outFailOne.events :=
  ⟨rfl, by decide, by decide, by decide⟩

/-- Claim C8, amended: for every payment whose transfer fails, a
`PaymentFailed` event with that payment's recipient, amount and index is
emitted, always carrying the generic reason string "Transfer failed"; the
failure reason returned by the transfer primitive is discarded, never
propagated. -/
theorem claim_C8_failed_reason
    (sender value timestamp : Nat) (payments : List Payment) (s : ContractState)
    (env : Env) (out : BatchOutcome)
    (h : batchPay sender value timestamp payments s env = .ok out) :
    (∀ e ∈ out.events, ∀ (se re a ix : Nat) (reason : String),
      e = .PaymentFailed se re a ix reason → reason = "Transfer failed") ∧
    ∀ (j : Nat) (hj : j < payments.length), env.transferOk j = false →
      Event.PaymentFailed sender (payments.get ⟨j, hj⟩).recipient
        (payments.get ⟨j, hj⟩).amount j "Transfer failed" ∈ out.events := by
  obtain ⟨-, -, -, -, -, hfin⟩ := batchPay_ok_inv h
  obtain ⟨-, -, -, -, hout⟩ := finishBatch_ok_inv hfin
  subst hout
  constructor
  · intro e he se re a ix reason hkind
    simp only [List.mem_cons, List.mem_append, List.mem_singleton] at he
    rcases he with rfl | he | rfl | he
    · simp at hkind
    · exact processPayments_failed_reason sender env 0 payments e he se re a ix
        reason hkind
    · simp at hkind
    · simp at he
  · intro j hj hfail
    have hmem := processPayments_failed_mem sender env 0 payments j hj
      (by rwa [Nat.zero_add])
    rw [Nat.zero_add] at hmem
    simp only [List.mem_cons, List.mem_append, List.mem_singleton]
    exact Or.inr (Or.inl hmem)

theorem claim_C8_witness :
    batchPay 1 MIN_AMOUNT 0 [⟨2, MIN_AMOUNT⟩] ⟨0, 0⟩ envFailWithReason = .ok outFailOne ∧
    Event.PaymentFailed 1 2 MIN_AMOUNT 0 "Transfer failed" ∈ outFailOne.events := by
  have h : batchPay 1 MIN_AMOUNT 0 [⟨2, MIN_AMOUNT⟩] ⟨0, 0⟩ envFailWithReason
      = .ok outFailOne := by decide
  refine ⟨h, ?_⟩
  have := (claim_C8_failed_reason 1 MIN_AMOUNT 0 [⟨2, MIN_AMOUNT⟩] ⟨0, 0⟩
    envFailWithReason outFailOne h).2 0 (by decide) rfl
  simpa using this

/-- An environment in which the transfer fails and the refund call to the
sender also fails. -/
def envRefundFail : Env := ⟨fun _ => false, fun _ => none, false, true⟩

/-- Claim C4: for a batch that passes validation (with non-overflowing
statistics), if the refund of `failedAmount` to the sender fails, the whole
call reverts with `RefundFailed`; if the excess return fails (the refund
having succeeded or not been needed), it reverts with `ExcessRefundFailed`;
and any reverting `batchPay` call leaves the storage exactly as before, with
no events emitted and no value moved. -/
theorem claim_C4_reconciliation_failure
    (sender value timestamp : Nat) (payments : List Payment) (s : ContractState)
    (env : Env)
    (hlen0 : 0 < payments.length) (hlen1 : payments.length ≤ MAX_RECIPIENTS)
    (hv : ∀ p ∈ payments, validPay p) (hbound : sumAmounts payments < U256)
    (hval : sumAmounts payments ≤ value)
    (hstats1 : s.totalPaymentsProcessed + payments.length < U256)
    (hstats2 : s.totalVolumeProcessed + sumAmounts payments < U256) :
    ((processPayments sender env 0 payments).totalProcessed < sumAmounts payments →
      env.refundOk = false →
      batchPay sender value timestamp payments s env = .error .RefundFailed) ∧
    ((env.refundOk = true ∨
        (processPayments sender env 0 payments).totalProcessed = sumAmounts payments) →
      sumAmounts payments < value → env.excessOk = false →
      batchPay sender value timestamp payments s env = .error .ExcessRefundFailed) ∧
    (∀ e, batchPay sender value timestamp payments s env = .error e →
      stepVoidTx s (.batchPayCall sender value timestamp payments env) = ⟨s, [], []⟩) := by
  have hcounts := processPayments_counts sender env 0 payments
  have htple := processPayments_totalProcessed_le sender env 0 payments
  have hrun := batchPay_run sender value timestamp payments s env hlen0 hlen1 hv
    hbound hval
  refine ⟨?_, ?_, ?_⟩
  · intro hfa hr
    rw [hrun]
    unfold finishBatch
    rw [if_neg (by omega), if_neg (by omega), if_pos ⟨by omega, hr⟩]
  · intro hro hex hexOk
    rw [hrun]
    unfold finishBatch
    rw [if_neg (by omega), if_neg (by omega), if_neg ?href, if_pos ⟨by omega, hexOk⟩]
    case href =>
      rcases hro with hro | hro
      · rintro ⟨-, hcontra⟩
        rw [hro] at hcontra
        cases hcontra
      · rintro ⟨hcontra, -⟩
        omega
  · intro e he
    simp [stepVoidTx, he]

theorem claim_C4_witness :
    (processPayments 1 envRefundFail 0 [⟨2, MIN_AMOUNT⟩]).totalProcessed
        < sumAmounts [⟨2, MIN_AMOUNT⟩] ∧
    batchPay 1 MIN_AMOUNT 0 [⟨2, MIN_AMOUNT⟩] ⟨0, 0⟩ envRefundFail
      = .error .RefundFailed := by
  refine ⟨by decide, (claim_C4_reconciliation_failure 1 MIN_AMOUNT 0 [⟨2, MIN_AMOUNT⟩]
    ⟨0, 0⟩ envRefundFail (by decide) (by decide) (by decide) (by decide) (by decide)
    (by decide) (by decide)).1 (by decide) rfl⟩

/-- A batch whose first payment has a too-small amount (with a nonzero
recipient) and whose second payment has the zero recipient. -/
def mixedBadBatch : List Payment := [⟨5, 0⟩, ⟨0, MIN_AMOUNT⟩]

/-- Claim C3 fails as stated: it asserts `batchPay` fails with
`InvalidRecipient` iff some payment's recipient is the zero address, but on
`mixedBadBatch` — which contains a zero recipient — the call fails with
`AmountTooSmall` instead, because validation scans payments in order and the
first payment's amount check fires first. -/
theorem claim_C3_counterexample :
    (∃ p ∈ mixedBadBatch, p.recipient = 0) ∧
    batchPay 1 0 0 mixedBadBatch ⟨0, 0⟩ envAllOk = .error .AmountTooSmall ∧
    batchPay 1 0 0 mixedBadBatch ⟨0, 0⟩ envAllOk ≠ .error .InvalidRecipient :=
  ⟨by decide, by decide, by decide⟩

/-- Claim C3, amended: the validation checks run in a fixed order — batch
emptiness, then batch size, then a left-to-right scan checking each payment's
recipient before its amount, then the funding check — and each error fires
iff its condition is the first one violated: `EmptyBatch` iff the batch is
empty; `BatchTooLarge` iff it has more than `MAX_RECIPIENTS` payments;
`InvalidRecipient` (resp. `AmountTooSmall`) iff the size checks pass and the
first payment failing a per-payment check fails the recipient (resp. amount)
check; `InsufficientFunds` iff all payments pass and `valueAttached` is below
the amount sum.  Every such failure leaves the storage unchanged, emits no
events and moves no value, all before any transfer is attempted.  (Stated for
batches whose amount sum is representable in `uint256`.) -/
theorem claim_C3_validation_errors
    (sender value timestamp : Nat) (payments : List Payment) (s : ContractState)
    (env : Env) (hbound : sumAmounts payments < U256) :
    (batchPay sender value timestamp payments s env = .error .EmptyBatch ↔
      payments.length = 0) ∧
    (batchPay sender value timestamp payments s env = .error .BatchTooLarge ↔
      MAX_RECIPIENTS < payments.length) ∧
    (batchPay sender value timestamp payments s env = .error .InvalidRecipient ↔
      0 < payments.length ∧ payments.length ≤ MAX_RECIPIENTS ∧
        ∃ l₁ q l₂, payments = l₁ ++ q :: l₂ ∧ (∀ x ∈ l₁, validPay x) ∧
          q.recipient = 0) ∧
    (batchPay sender value timestamp payments s env = .error .AmountTooSmall ↔
      0 < payments.length ∧ payments.length ≤ MAX_RECIPIENTS ∧
        ∃ l₁ q l₂, payments = l₁ ++ q :: l₂ ∧ (∀ x ∈ l₁, validPay x) ∧
          q.recipient ≠ 0 ∧ q.amount < MIN_AMOUNT) ∧
    (batchPay sender value timestamp payments s env = .error .InsufficientFunds ↔
      0 < payments.length ∧ payments.length ≤ MAX_RECIPIENTS ∧
        (∀ p ∈ payments, validPay p) ∧ value < sumAmounts payments) ∧
    (∀ e, batchPay sender value timestamp payments s env = .error e →
      stepVoidTx s (.batchPayCall sender value timestamp payments env) = ⟨s, [], []⟩) := by
  refine ⟨?_, ?_, ?_, ?_, ?_, ?_⟩
  · -- EmptyBatch
    constructor
    · intro h
      rcases batchPay_error_inv h with ⟨h1, -⟩ | ⟨-, -, h3⟩ | ⟨-, -, h3⟩ |
        ⟨-, -, n, -, -, h3⟩ | ⟨-, -, n, -, -, h3⟩
      · exact h1
      · simp at h3
      · rcases computeTotalRequired_error_cases payments 0 _ h3 with h | h | h <;>
          simp at h
      · simp at h3
      · rcases finishBatch_error_cases h3 with h | h | h <;> simp at h
    · intro h
      unfold batchPay
      rw [if_pos h]
  · -- BatchTooLarge
    constructor
    · intro h
      rcases batchPay_error_inv h with ⟨-, h2⟩ | ⟨-, h2, -⟩ | ⟨-, -, h3⟩ |
        ⟨-, -, n, -, -, h3⟩ | ⟨-, -, n, -, -, h3⟩
      · simp at h2
      · exact h2
      · rcases computeTotalRequired_error_cases payments 0 _ h3 with h | h | h <;>
          simp at h
      · simp at h3
      · rcases finishBatch_error_cases h3 with h | h | h <;> simp at h
    · intro h
      unfold batchPay
      rw [if_neg (by omega), if_pos h]
  · -- InvalidRecipient
    constructor
    · intro h
      rcases batchPay_error_inv h with ⟨-, h2⟩ | ⟨-, -, h2⟩ | ⟨hl0, hl1, h3⟩ |
        ⟨-, -, n, -, -, h3⟩ | ⟨-, -, n, -, -, h3⟩
      · simp at h2
      · simp at h2
      · exact ⟨hl0, hl1,
          (computeTotalRequired_error_invalid payments 0 (by omega)).mp h3⟩
      · simp at h3
      · rcases finishBatch_error_cases h3 with h' | h' | h' <;> simp at h'
    · rintro ⟨hl0, hl1, hdecomp⟩
      have hctr : computeTotalRequired payments 0 = .error .InvalidRecipient :=
        (computeTotalRequired_error_invalid payments 0 (by omega)).mpr hdecomp
      unfold batchPay
      rw [if_neg (by omega), if_neg (by omega), hctr]
  · -- AmountTooSmall
    constructor
    · intro h
      rcases batchPay_error_inv h with ⟨-, h2⟩ | ⟨-, -, h2⟩ | ⟨hl0, hl1, h3⟩ |
        ⟨-, -, n, -, -, h3⟩ | ⟨-, -, n, -, -, h3⟩
      · simp at h2
      · simp at h2
      · exact ⟨hl0, hl1,
          (computeTotalRequired_error_small payments 0 (by omega)).mp h3⟩
      · simp at h3
      · rcases finishBatch_error_cases h3 with h' | h' | h' <;> simp at h'
    · rintro ⟨hl0, hl1, hdecomp⟩
      have hctr : computeTotalRequired payments 0 = .error .AmountTooSmall :=
        (computeTotalRequired_error_small payments 0 (by omega)).mpr hdecomp
      unfold batchPay
      rw [if_neg (by omega), if_neg (by omega), hctr]
  · -- InsufficientFunds
    constructor
    · intro h
      rcases batchPay_error_inv h with ⟨-, h2⟩ | ⟨-, -, h2⟩ | ⟨hl0, hl1, h3⟩ |
        ⟨hl0, hl1, n, hn, hlt, -⟩ | ⟨-, -, n, -, -, h3⟩
      · simp at h2
      · simp at h2
      · rcases computeTotalRequired_error_cases payments 0 _ h3 with h' | h' | h' <;>
          simp at h'
      · obtain ⟨hsum, hvalid⟩ := computeTotalRequired_ok_inv payments 0 n hn
        exact ⟨hl0, hl1, hvalid, by omega⟩
      · rcases finishBatch_error_cases h3 with h' | h' | h' <;> simp at h'
    · rintro ⟨hl0, hl1, hvalid, hlt⟩
      have hctr := computeTotalRequired_ok_of_valid payments 0 hvalid (by omega)
      rw [Nat.zero_add] at hctr
      unfold batchPay
      rw [if_neg (by omega), if_neg (by omega), hctr]
      simp only []
      rw [if_pos hlt]
  · -- rollback on any validation error
    intro e he
    simp [stepVoidTx, he]

theorem claim_C3_witness :
    sumAmounts ([] : List Payment) < U256 ∧
    batchPay 1 0 0 [] ⟨0, 0⟩ envAllOk = .error .EmptyBatch := by
  have hb : sumAmounts ([] : List Payment) < U256 := by decide
  exact ⟨hb, ((claim_C3_validation_errors 1 0 0 [] ⟨0, 0⟩ envAllOk hb).1).mpr rfl⟩

end VoidTx
